import Mathlib

/-!
Verification of the poster layout engine (`poster_designer.py`).

Shallow embedding: the renderer backend (reportlab canvas) is modelled as an
abstract capability `Env` (text-width measurement, file existence, image
resolution) plus a trace of drawing commands `Cmd`.  Coordinates and sizes are
rationals (`ℚ`); the python floats `1.25`, `0.6`, `0.7` and the reportlab unit
`mm = 72 / 25.4` are represented exactly as `5/4`, `3/5`, `7/10` and `360/127`.
Every function mirrors the corresponding python function of the source file.
-/

namespace Poster

/-- One reportlab millimetre in points: `mm = 72 / 25.4 = 360 / 127`. -/
def mm : ℚ := 360 / 127

/-- The reportlab colors the engine uses. -/
inductive Color
  | white
  | black
  | whitesmoke
  | darkgray
  deriving DecidableEq

/-- Canvas commands issued by the engine, in issue order.  `rect`'s flag is
`fill=1` (all rects in the source are filled, `stroke=0`). -/
inductive Cmd
  | setFont (font : String) (size : ℚ)
  | setFillColor (c : Color)
  | setStrokeColor (c : Color)
  | rect (x y w h : ℚ) (fill : Bool)
  | drawString (x y : ℚ) (s : String)
  | drawRightString (x y : ℚ) (s : String)
  | drawImage (path : String) (x y w h : ℚ)
  | showPage
  deriving DecidableEq

/-- The external collaborators: text measurement (`canvas.stringWidth`,
argument order font, size, text), `os.path.exists`, and image resolution
(`ImageReader` + `getSize`; `none` models any exception raised there). -/
structure Env where
  width : String → ℚ → String → ℚ
  pathExists : String → Bool
  readImage : String → Option (ℚ × ℚ)

/-- One entry of `Section.images`: a python dict with optional `path` and a
`caption` defaulting to `""`. -/
structure ImageSpec where
  path : Option String
  caption : String := ""
  deriving DecidableEq

/-- `Section` dataclass. -/
structure Section where
  title : String
  body : String
  bullets : List String := []
  images : List ImageSpec := []
  deriving DecidableEq

/-- `Layout` dataclass with its source defaults. -/
structure Layout where
  columns : ℕ := 3
  margins_mm : ℚ := 25
  gutter_mm : ℚ := 16
  titleband_mm : ℚ := 120
  section_title_size : ℚ := 44
  body_size : ℚ := 28
  bullet_indent_mm : ℚ := 8
  deriving DecidableEq

/-- `PosterContent` dataclass (post-construction, so `title` is present). -/
structure PosterContent where
  page_mm : ℚ × ℚ
  title : String
  subtitle : Option String := none
  authors : String := ""
  affiliations : Option String := none
  logos : List String := []
  theme : Option String := some "light"
  layout : Layout := {}
  sections : List Section := []
  footer : Option String := none
  deriving DecidableEq

/-- The parsed json dict as `build_poster` reads it: `data["title"]` may be
missing (`none`), every other field already carries the `.get` default. -/
structure InputData where
  page_mm : ℚ × ℚ := (1800, 1200)
  title : Option String := none
  subtitle : Option String := none
  authors : String := ""
  affiliations : Option String := none
  logos : List String := []
  theme : Option String := some "light"
  layout : Layout := {}
  sections : List Section := []
  footer : Option String := none
  deriving DecidableEq

/-- Page background color: `colors.white if content.theme == "light" else
colors.black` (`build_poster`, lines 195 and 223). -/
def pageBg (theme : Option String) : Color :=
  if theme = some "light" then Color.white else Color.black

/-- Title-band background: `colors.whitesmoke if content.theme == "light" else
colors.darkgray` (`_draw_title_band`, line 41). -/
def bandBg (theme : Option String) : Color :=
  if theme = some "light" then Color.whitesmoke else Color.darkgray

/-- Title-band foreground: `colors.black if content.theme == "light" else
colors.whitesmoke` (`_draw_title_band`, line 42). -/
def bandFg (theme : Option String) : Color :=
  if theme = some "light" then Color.black else Color.whitesmoke

/-- `text.split("\n")` on the character list. -/
def splitNl : List Char → List (List Char)
  | [] => [[]]
  | c :: cs =>
    let r := splitNl cs
    if c = '\n' then [] :: r
    else
      match r with
      | [] => [[c]]
      | p :: ps => (c :: p) :: ps

/-- Splitting at whitespace characters, keeping empty pieces (python
`str.split()` is this followed by dropping the empty pieces). -/
def splitWs : List Char → List (List Char)
  | [] => [[]]
  | c :: cs =>
    let r := splitWs cs
    if c.isWhitespace then [] :: r
    else
      match r with
      | [] => [[c]]
      | p :: ps => (c :: p) :: ps

/-- `str.strip()`. -/
def trimChars (cs : List Char) : List Char :=
  ((cs.dropWhile Char.isWhitespace).reverse.dropWhile Char.isWhitespace).reverse

/-- `[p.strip() for p in text.split("\n")]`. -/
def paragraphsOf (text : String) : List String :=
  (splitNl text.data).map (fun cs => String.mk (trimChars cs))

/-- `p.split()`: whitespace tokenization with empty tokens dropped. -/
def wordsOf (p : String) : List String :=
  ((splitWs p.data).filter (fun w => w ≠ [])).map String.mk

/-- `" ".join(ws)`. -/
def joinSp : List String → String
  | [] => ""
  | [w] => w
  | w :: ws => w ++ " " ++ joinSp ws

/-- The greedy word-accumulation loop of `_split_text_to_lines` (lines 92-101):
`cur` is the current line under construction. -/
def wrapWords (width : String → ℚ) (maxW : ℚ) (cur : List String) :
    List String → List String
  | [] => if cur = [] then [] else [joinSp cur]
  | w :: ws =>
    if width (joinSp (cur ++ [w])) ≤ maxW then wrapWords width maxW (cur ++ [w]) ws
    else joinSp cur :: wrapWords width maxW [w] ws

/-- The per-paragraph part of `_split_text_to_lines`: an empty (stripped)
paragraph contributes `[""]`, otherwise the greedy wrap of its words. -/
def paraLines (width : String → ℚ) (maxW : ℚ) (p : String) : List String :=
  if p = "" then [""] else wrapWords width maxW [] (wordsOf p)

/-- `_split_text_to_lines(c, text, font_name, font_size, max_width)`; the
measuring function `width` stands for `c.stringWidth(·, font_name, font_size)`.
The python loop appends each paragraph's lines to one list in order, which is
exactly the concatenation below. -/
def split_text_to_lines (width : String → ℚ) (maxW : ℚ) (text : String) :
    List String :=
  ((paragraphsOf text).map (paraLines width maxW)).flatten

/-- The title auto-shrink `while` loop of `_draw_title_band` (lines 48-51),
indexed by `n` with current size `36 + 2 * n`: while the measured width at the
current size exceeds `maxW` (and the size exceeds 36) the size drops by 2. -/
def titleFitAux (widthAt : ℕ → ℚ) (maxW : ℚ) : ℕ → ℕ
  | 0 => 36
  | n + 1 =>
    if maxW < widthAt (36 + 2 * (n + 1)) then titleFitAux widthAt maxW n
    else 36 + 2 * (n + 1)

/-- The chosen title size: the loop starts at `font_size = 72 = 36 + 2 * 18`. -/
def titleFit (widthAt : ℕ → ℚ) (maxW : ℚ) : ℕ :=
  titleFitAux widthAt maxW 18

/-- The descending size sequence 72, 70, ..., 36 the loop ranges over. -/
def titleSizes : List ℕ :=
  (List.range 19).map (fun k => 72 - 2 * k)

/-- Scaled draw size for a section image (`_draw_section` lines 155-156):
`scale = min(max_w / iw, 4000 / ih)`. -/
def imageFit (iw ih maxW : ℚ) : ℚ × ℚ :=
  let scale := min (maxW / iw) (4000 / ih)
  (iw * scale, ih * scale)

/-- Scaled draw size for a logo (`_draw_title_band` line 75):
`scale = min(70 / ih, 2000 / iw)`. -/
def logoFit (iw ih : ℚ) : ℚ × ℚ :=
  let scale := min (70 / ih) (2000 / iw)
  (iw * scale, ih * scale)

/-- The logo loop of `_draw_title_band` (lines 71-81): running right-to-left
x cursor, any exception skips the logo without moving the cursor. -/
def logosLoop (env : Env) (y : ℚ) : ℚ → List String → List Cmd
  | _, [] => []
  | x, p :: rest =>
    match env.readImage p with
    | none => logosLoop env y x rest
    | some (iw, ih) =>
      let d := logoFit iw ih
      let x_cursor := x - d.1
      Cmd.drawImage p x_cursor (y - d.2) d.1 d.2 :: logosLoop env y (x_cursor - 10) rest

/-- `_draw_title_band(c, content, W, H, L)`. -/
def draw_title_band (env : Env) (content : PosterContent) (W H : ℚ) (L : Layout) :
    List Cmd :=
  let authors_y := H - (L.titleband_mm - 85) * mm
  let font_size :=
    titleFit (fun s => env.width "Helvetica-Bold" (s : ℚ) content.title)
      (W - 2 * L.margins_mm * mm)
  [Cmd.setFillColor (bandBg content.theme),
   Cmd.setStrokeColor (bandBg content.theme),
   Cmd.rect 0 (H - L.titleband_mm * mm) W (L.titleband_mm * mm) true,
   Cmd.setFillColor (bandFg content.theme),
   Cmd.setFont "Helvetica-Bold" (font_size : ℚ),
   Cmd.drawString (L.margins_mm * mm) (H - (L.titleband_mm - 30) * mm) content.title]
  ++ (match content.subtitle with
      | some s =>
        if s = "" then []
        else [Cmd.setFont "Helvetica" 32,
              Cmd.drawString (L.margins_mm * mm) (H - (L.titleband_mm - 55) * mm) s]
      | none => [])
  ++ [Cmd.setFont "Helvetica" 26,
      Cmd.drawString (L.margins_mm * mm) authors_y content.authors]
  ++ (match content.affiliations with
      | some a =>
        if a = "" then []
        else [Cmd.setFont "Helvetica-Oblique" 24,
              Cmd.drawString (L.margins_mm * mm) (authors_y - 14) a]
      | none => [])
  ++ logosLoop env (H - (L.titleband_mm - 20) * mm) (W - L.margins_mm * mm)
       content.logos

/-- Body loop of `_draw_section` (lines 117-124): before each line the cursor
is checked against the area bottom; the `Bool` records the early `return y`. -/
def bodyLoop (area_x area_y lh : ℚ) : ℚ → List String → List Cmd × ℚ × Bool
  | y, [] => ([], y, false)
  | y, line :: ls =>
    if y < area_y then ([], y, true)
    else if line = "" then bodyLoop area_x area_y lh (y - lh * (3 / 5)) ls
    else
      let r := bodyLoop area_x area_y lh (y - lh) ls
      (Cmd.drawString area_x y line :: r.1, r.2)

/-- Continuation lines of one bullet, `_draw_section` lines 137-141. -/
def bulletCont (bx area_y lh : ℚ) : ℚ → List String → List Cmd × ℚ × Bool
  | y, [] => ([], y, false)
  | y, wline :: rest =>
    if y < area_y then ([], y, true)
    else
      let r := bulletCont bx area_y lh (y - lh) rest
      (Cmd.drawString bx y wline :: r.1, r.2)

/-- Bullet loop of `_draw_section` (lines 130-141): marker and first wrapped
line at the current cursor, remaining wrapped lines indented. -/
def bulletLoop (width : String → ℚ) (area_x area_y area_w bullet_indent lh : ℚ) :
    ℚ → List String → List Cmd × ℚ × Bool
  | y, [] => ([], y, false)
  | y, b :: bs =>
    if y < area_y then ([], y, true)
    else
      let wrapped := split_text_to_lines width (area_w - bullet_indent) b
      let r := bulletCont (area_x + bullet_indent) area_y lh (y - lh) wrapped.tail
      let head := [Cmd.drawString area_x y "•",
                   Cmd.drawString (area_x + bullet_indent) y (wrapped.headD "")]
      if r.2.2 then (head ++ r.1, r.2)
      else
        let r2 := bulletLoop width area_x area_y area_w bullet_indent lh r.2.1 bs
        (head ++ r.1 ++ r2.1, r2.2)

/-- Image loop of `_draw_section` (lines 144-166): missing/empty path or a
failed resolution skips the entry; a draw that would cross the bottom (with the
24-unit caption allowance) returns early without drawing. -/
def imagesLoop (env : Env) (area_x area_y area_w cap_size : ℚ) :
    ℚ → List ImageSpec → List Cmd × ℚ × Bool
  | y, [] => ([], y, false)
  | y, spec :: rest =>
    if y < area_y then ([], y, true)
    else
      match spec.path with
      | none => imagesLoop env area_x area_y area_w cap_size y rest
      | some path =>
        if path = "" ∨ ¬ env.pathExists path then
          imagesLoop env area_x area_y area_w cap_size y rest
        else
          match env.readImage path with
          | none => imagesLoop env area_x area_y area_w cap_size y rest
          | some (iw, ih) =>
            let d := imageFit iw ih area_w
            if y - d.2 - 24 < area_y then ([], y, true)
            else
              let y1 := y - (d.2 + 6)
              let cap : List Cmd × ℚ :=
                if spec.caption = "" then ([], y1)
                else ([Cmd.setFont "Helvetica-Oblique" cap_size,
                       Cmd.drawString area_x y1 spec.caption], y1 - 18)
              let r := imagesLoop env area_x area_y area_w cap_size cap.2 rest
              (Cmd.drawImage path area_x (y - d.2) d.1 d.2 :: cap.1 ++ r.1, r.2)

/-- `_draw_section(c, sec, area_x, area_y, area_w, start_y, L)`: returns the
command trace and the final cursor (the python `return y`). -/
def draw_section (env : Env) (L : Layout) (sec : Section)
    (area_x area_y area_w start_y : ℚ) : List Cmd × ℚ :=
  let titleCmds := [Cmd.setFont "Helvetica-Bold" L.section_title_size,
                    Cmd.setFillColor Color.black,
                    Cmd.drawString area_x start_y sec.title]
  let y1 := start_y - (L.section_title_size + 8)
  let bwidth := env.width "Helvetica" L.body_size
  let body_lines := split_text_to_lines bwidth area_w sec.body
  let lh := L.body_size * (5 / 4)
  let rb := bodyLoop area_x area_y lh y1 body_lines
  let cmds1 := titleCmds ++ Cmd.setFont "Helvetica" L.body_size :: rb.1
  if rb.2.2 then (cmds1, rb.2.1)
  else
    let rbl :=
      if sec.bullets.isEmpty then (([], rb.2.1, false) : List Cmd × ℚ × Bool)
      else bulletLoop bwidth area_x area_y area_w (L.bullet_indent_mm * mm) lh
             rb.2.1 sec.bullets
    let cmds2 := cmds1 ++
      (if sec.bullets.isEmpty then [] else [Cmd.setFont "Helvetica" L.body_size])
      ++ rbl.1
    if rbl.2.2 then (cmds2, rbl.2.1)
    else
      let cap_size : ℚ := ((max 16 (Int.floor (L.body_size * (7 / 10))) : ℤ) : ℚ)
      let ri := imagesLoop env area_x area_y area_w cap_size rbl.2.1 sec.images
      (cmds2 ++ ri.1, ri.2.1)

/-- `left = L.margins_mm * mm`. -/
def leftX (L : Layout) : ℚ := L.margins_mm * mm

/-- `right = W - L.margins_mm * mm`. -/
def rightX (L : Layout) (W : ℚ) : ℚ := W - L.margins_mm * mm

/-- `bottom = L.margins_mm * mm` (the flow area's `area_y`). -/
def bottomY (L : Layout) : ℚ := L.margins_mm * mm

/-- `top = H - L.titleband_mm * mm - L.margins_mm * mm`. -/
def topY (L : Layout) (H : ℚ) : ℚ := H - L.titleband_mm * mm - L.margins_mm * mm

/-- `gutter = L.gutter_mm * mm`. -/
def gutterW (L : Layout) : ℚ := L.gutter_mm * mm

/-- `col_w = (total_width - (L.columns - 1) * gutter) / L.columns`. -/
def colWidth (L : Layout) (W : ℚ) : ℚ :=
  ((rightX L W - leftX L) - ((L.columns : ℚ) - 1) * gutterW L) / (L.columns : ℚ)

/-- Mutable state of the section flow loop in `build_poster` (lines 211-230),
with the command trace accumulated so far. -/
structure FlowState where
  cur_col : ℕ
  x : ℚ
  y : ℚ
  cmds : List Cmd
  deriving DecidableEq

/-- Page finalization on column exhaustion (lines 222-225): `showPage`, repaint
background, repaint title band. -/
def newPageCmds (env : Env) (content : PosterContent) (W H : ℚ) (L : Layout) :
    List Cmd :=
  Cmd.showPage :: Cmd.setFillColor (pageBg content.theme) ::
    Cmd.rect 0 0 W H true :: draw_title_band env content W H L

/-- One iteration of the `for sec in content.sections` loop of `build_poster`
(lines 216-230). -/
def flowStep (env : Env) (content : PosterContent) (L : Layout) (W H : ℚ)
    (st : FlowState) (sec : Section) : FlowState :=
  let r := draw_section env L sec st.x (bottomY L) (colWidth L W) st.y
  if r.2 < bottomY L + 60 then
    let c1 := st.cur_col + 1
    let pageCmds := if L.columns ≤ c1 then newPageCmds env content W H L else []
    let c2 := if L.columns ≤ c1 then 0 else c1
    let x2 := leftX L + (c2 : ℚ) * (colWidth L W + gutterW L)
    let r2 := draw_section env L sec x2 (bottomY L) (colWidth L W) (topY L H)
    { cur_col := c2, x := x2, y := r2.2 - 18,
      cmds := st.cmds ++ r.1 ++ pageCmds ++ r2.1 }
  else
    { st with y := r.2 - 18, cmds := st.cmds ++ r.1 }

/-- The `PosterContent(...)` construction of `build_poster`, once the `title`
key is known present. -/
def contentOf (d : InputData) (t : String) : PosterContent :=
  { page_mm := d.page_mm, title := t, subtitle := d.subtitle,
    authors := d.authors, affiliations := d.affiliations, logos := d.logos,
    theme := d.theme, layout := d.layout, sections := d.sections,
    footer := d.footer }

/-- Everything `build_poster` draws before the footer: background, title band,
and the flowed sections. -/
def mainCmds (env : Env) (d : InputData) (t : String) : List Cmd :=
  let content := contentOf d t
  let L := d.layout
  let W := d.page_mm.1 * mm
  let H := d.page_mm.2 * mm
  let initCmds := Cmd.setFillColor (pageBg content.theme) ::
    Cmd.rect 0 0 W H true :: draw_title_band env content W H L
  (content.sections.foldl (flowStep env content L W H)
    { cur_col := 0, x := leftX L, y := topY L H, cmds := initCmds }).cmds

/-- The footer block of `build_poster` (lines 233-236); `if content.footer:`
is python truthiness, so an empty string draws nothing. -/
def footerCmds (d : InputData) : List Cmd :=
  match d.footer with
  | some f =>
    if f = "" then []
    else [Cmd.setFont "Helvetica" 20, Cmd.setFillColor Color.black,
          Cmd.drawRightString (rightX d.layout (d.page_mm.1 * mm))
            (bottomY d.layout - 10) f]
  | none => []

/-- `build_poster`: `data["title"]` raises `KeyError` (before the canvas is
even created) when the key is missing; otherwise the full command trace. -/
def build_poster (env : Env) (d : InputData) : Except String (List Cmd) :=
  match d.title with
  | none => Except.error "KeyError: title"
  | some t => Except.ok (mainCmds env d t ++ footerCmds d)

/-- The command list of a render result (empty when the render failed). -/
def cmdsOf : Except String (List Cmd) → List Cmd
  | Except.ok l => l
  | Except.error _ => []

/-- Recognizer for the right-aligned draw command (used only by the footer). -/
def isRightStr : Cmd → Bool
  | Cmd.drawRightString _ _ _ => true
  | _ => false

/-- Whether a render call returned normally. -/
def renderOk : Except String (List Cmd) → Bool
  | Except.ok _ => true
  | Except.error _ => false

/-- A command list containing no right-aligned text draw. -/
def noRightCmds (l : List Cmd) : Prop := ∀ c ∈ l, isRightStr c = false

/-- Modelled from the spec (wrapper contract, section 4.1 and section 8): what
one trimmed paragraph must contribute to the wrapper output — a blank line in
the input yields exactly one empty output line, and a paragraph with words
yields only non-empty lines that, concatenated with single spaces, rebuild the
whitespace-normalized paragraph. -/
def para_spec_ok (lines : List String) (p : String) : Prop :=
  (p = "" → lines = [""]) ∧
  (p ≠ "" → (∀ l ∈ lines, l ≠ "") ∧ joinSp lines = joinSp (wordsOf p))

/-- Modelled from the spec: the wrapper output is the in-order concatenation of
per-paragraph contributions, each of which is faithful in the sense of
`para_spec_ok` (empty lines appear exactly at the explicit paragraph breaks, so
the whitespace-normalized text is reconstructible). -/
def wrapFaithful (width : String → ℚ) (maxW : ℚ) (text : String) : Prop :=
  split_text_to_lines width maxW text =
    ((paragraphsOf text).map (paraLines width maxW)).flatten ∧
  ∀ p ∈ paragraphsOf text, para_spec_ok (paraLines width maxW p) p

/-- A renderer stub: every string measures 0, no file exists, no image loads. -/
def env0 : Env :=
  { width := fun _ _ _ => 0, pathExists := fun _ => false,
    readImage := fun _ => none }

/-- A renderer stub whose images all resolve with intrinsic size 100 × 50. -/
def envImg : Env :=
  { width := fun _ _ _ => 0, pathExists := fun _ => true,
    readImage := fun _ => some (100, 50) }

/-- A width function measuring one unit per character. -/
def lenW : String → ℚ := fun s => (s.data.length : ℚ)

/-- A minimal section: title only, empty body, no bullets, no images. -/
def sec0 : Section := { title := "T", body := "" }

/-- Two columns, no margins, no gutter, no title band. -/
def L2 : Layout := { columns := 2, margins_mm := 0, gutter_mm := 0, titleband_mm := 0 }

/-- One column, no margins, no gutter, no title band. -/
def L1 : Layout := { columns := 1, margins_mm := 0, gutter_mm := 0, titleband_mm := 0 }

/-- Content fixture over `L2`. -/
def content2 : PosterContent := { page_mm := (1000, 1000), title := "T", layout := L2 }

/-- Content fixture over `L1`. -/
def content1 : PosterContent := { page_mm := (1000, 1000), title := "T", layout := L1 }

/-- Flow state with plenty of room left in the column. -/
def stA : FlowState := { cur_col := 0, x := 0, y := 500, cmds := [] }

/-- Flow state almost at the column bottom. -/
def stB : FlowState := { cur_col := 0, x := 0, y := 30, cmds := [] }

/-- Flow state in the last column (index 1 of 2), almost at the bottom. -/
def stC : FlowState := { cur_col := 1, x := 500, y := 30, cmds := [] }

/-- The empty input record: every key missing, including the title. -/
def dEmpty : InputData := {}

/-- Input whose geometry makes the computed column width negative
(three columns, gutters wider than the page), with a title present. -/
def dNeg : InputData :=
  { page_mm := (100, 100), title := some "T",
    layout := { columns := 3, margins_mm := 0, gutter_mm := 100, titleband_mm := 0 } }

/-- Input with the default geometry and a footer. -/
def dFoot : InputData := { title := some "T", footer := some "F" }

/-- An image entry whose path key is absent. -/
def specNone : ImageSpec := { path := none }

/-- An image entry with a readable path. -/
def specP : ImageSpec := { path := some "p" }

/-! ## Helper lemmas about strings and the greedy wrapper -/

theorem string_eq_empty_iff (s : String) : s = "" ↔ s.data = [] := by
  constructor
  · intro h; rw [h]
  · intro h; apply String.ext; rw [h]

theorem append_ne_empty_left (a b : String) (ha : a ≠ "") : a ++ b ≠ "" := by
  intro h
  apply ha
  rw [string_eq_empty_iff] at h ⊢
  have hd : (a ++ b).data = a.data ++ b.data := rfl
  rw [hd] at h
  exact (List.append_eq_nil.mp h).1

theorem joinSp_singleton (a : String) : joinSp [a] = a := rfl

theorem joinSp_cons (a : String) (l : List String) (h : l ≠ []) :
    joinSp (a :: l) = a ++ " " ++ joinSp l := by
  cases l with
  | nil => exact absurd rfl h
  | cons b l' => rfl

theorem joinSp_ne_empty (a : String) (l : List String) (ha : a ≠ "") :
    joinSp (a :: l) ≠ "" := by
  cases l with
  | nil => exact ha
  | cons b l' => exact append_ne_empty_left _ _ (append_ne_empty_left _ _ ha)

theorem joinSp_append (a b : List String) (ha : a ≠ []) (hb : b ≠ []) :
    joinSp (a ++ b) = joinSp a ++ " " ++ joinSp b := by
  induction a with
  | nil => exact absurd rfl ha
  | cons x a' ih =>
    cases a' with
    | nil =>
      have h1 : ([x] : List String) ++ b = x :: b := rfl
      rw [h1, joinSp_cons x b hb, joinSp_singleton]
    | cons y a'' =>
      have h1 : (x :: y :: a'') ++ b = x :: ((y :: a'') ++ b) := rfl
      rw [h1, joinSp_cons x _ (by simp), joinSp_cons x (y :: a'') (by simp),
        ih (by simp)]
      simp [String.append_assoc]

theorem wordsOf_ne_empty (p : String) : ∀ w ∈ wordsOf p, w ≠ "" := by
  intro w hw
  rcases List.mem_map.mp hw with ⟨cs, hcs, rfl⟩
  have hne : cs ≠ [] := by
    have := List.mem_filter.mp hcs
    simpa using this.2
  exact fun h => hne ((string_eq_empty_iff _).mp h)

theorem wrapWords_ne_nil (width : String → ℚ) (maxW : ℚ) (ws : List String) :
    ∀ cur, cur ≠ [] → wrapWords width maxW cur ws ≠ [] := by
  induction ws with
  | nil => intro cur h; simp [wrapWords, h]
  | cons w ws ih =>
    intro cur h
    simp only [wrapWords]
    split
    · exact ih (cur ++ [w]) (by simp)
    · simp

theorem wrapWords_join (width : String → ℚ) (maxW : ℚ) (ws : List String) :
    ∀ cur, cur ≠ [] →
      joinSp (wrapWords width maxW cur ws) = joinSp (cur ++ ws) := by
  induction ws with
  | nil => intro cur h; simp [wrapWords, h, joinSp_singleton]
  | cons w ws ih =>
    intro cur h
    simp only [wrapWords]
    split
    · rw [ih (cur ++ [w]) (by simp)]
      simp
    · rw [joinSp_cons _ _ (wrapWords_ne_nil width maxW ws [w] (by simp)),
        ih [w] (by simp), ← joinSp_append cur ([w] ++ ws) h (by simp)]
      simp

theorem wrapWords_lines_ne (width : String → ℚ) (maxW : ℚ) (ws : List String) :
    ∀ cur, cur ≠ [] → (∀ x ∈ cur, x ≠ "") → (∀ w ∈ ws, w ≠ "") →
      ∀ l ∈ wrapWords width maxW cur ws, l ≠ "" := by
  induction ws with
  | nil =>
    intro cur h hc _ l hl
    simp only [wrapWords, if_neg h] at hl
    rcases List.mem_singleton.mp hl with rfl
    cases cur with
    | nil => exact absurd rfl h
    | cons x c => exact joinSp_ne_empty x c (hc x (by simp))
  | cons w ws ih =>
    intro cur h hc hw l hl
    simp only [wrapWords] at hl
    split at hl
    · refine ih (cur ++ [w]) (by simp) ?_ (fun x hx => hw x (by simp [hx])) l hl
      intro x hx
      rcases List.mem_append.mp hx with hx' | hx'
      · exact hc x hx'
      · rcases List.mem_singleton.mp hx' with rfl
        exact hw x (by simp)
    · rcases List.mem_cons.mp hl with rfl | hl'
      · cases cur with
        | nil => exact absurd rfl h
        | cons x c => exact joinSp_ne_empty x c (hc x (by simp))
      · refine ih [w] (by simp) ?_ (fun x hx => hw x (by simp [hx])) l hl'
        intro x hx
        rcases List.mem_singleton.mp hx with rfl
        exact hw x (by simp)

/-! ## Claim C3 -/

/-- Claim C3 (amended): provided the first word of every non-blank paragraph
fits within `maxW`, the wrapper output is faithful: a blank input line yields
exactly one empty output line, a paragraph with words yields only non-empty
lines whose single-space concatenation reconstructs the whitespace-normalized
paragraph, so the normalized text is reconstructible from the output with empty
lines marking the explicit paragraph breaks. -/
theorem wrap_reconstructs (width : String → ℚ) (maxW : ℚ) (text : String)
    (h : ∀ p ∈ paragraphsOf text, ∀ w ∈ (wordsOf p).take 1, width w ≤ maxW) :
    wrapFaithful width maxW text := by
  refine ⟨rfl, ?_⟩
  intro p hp
  constructor
  · intro hpe; simp [paraLines, hpe]
  · intro hpne
    have hpl : paraLines width maxW p = wrapWords width maxW [] (wordsOf p) := by
      simp [paraLines, hpne]
    rw [hpl]
    cases hw : wordsOf p with
    | nil =>
      constructor
      · intro l hl; simp [wrapWords] at hl
      · rfl
    | cons w ws =>
      have hfit : width w ≤ maxW := h p hp w (by rw [hw]; simp)
      have hstep : wrapWords width maxW [] (w :: ws) = wrapWords width maxW [w] ws := by
        simp only [wrapWords, List.nil_append, joinSp_singleton, if_pos hfit]
      rw [hstep]
      have hmem : ∀ x ∈ ([w] : List String), x ≠ "" := by
        intro x hx
        rcases List.mem_singleton.mp hx with rfl
        exact wordsOf_ne_empty p x (by rw [hw]; simp)
      constructor
      · exact wrapWords_lines_ne width maxW ws [w] (by simp) hmem
          (fun x hx => wordsOf_ne_empty p x (by rw [hw]; simp [hx]))
      · rw [wrapWords_join width maxW ws [w] (by simp)]
        rfl

theorem paraLines_A : paraLines lenW 0 "A" = ["", "A"] := by
  have hw : wordsOf "A" = ["A"] := by decide
  have hA : ("A" : String) ≠ "" := by decide
  have h1 : lenW "A" = 1 := by
    simp [lenW, show ("A".data.length) = 1 from by decide]
  rw [paraLines, if_neg hA, hw]
  simp only [wrapWords, List.nil_append, joinSp_singleton, h1]
  rw [if_neg (by norm_num)]
  rfl

/-- Claim C3 counterexample: measuring one unit per character with maxWidth 0,
the one-paragraph input "A" wraps to `["", "A"]` — an empty line is emitted for
a paragraph that contains words (the greedy loop closes the still-empty current
line when the paragraph's first word does not fit), so the reconstruction
property of the claim fails. -/
theorem wrap_reconstructs_cex : ¬ wrapFaithful lenW 0 "A" := by
  intro h
  have hp : ("A" : String) ∈ paragraphsOf "A" := by decide
  have h2 := (h.2 "A" hp).2 (by decide)
  rw [paraLines_A] at h2
  exact h2.1 "" (by simp) rfl

/-- Claim C3 witness: the amended theorem applied to the concrete input
"a b\n\nc" at maxWidth 10, one unit per character. -/
theorem wrap_reconstructs_witness : wrapFaithful lenW 10 "a b\n\nc" := by
  apply wrap_reconstructs
  intro p hp w hw
  rw [show paragraphsOf "a b\n\nc" = ["a b", "", "c"] from by decide] at hp
  have ha : lenW "a" ≤ 10 := by
    simp [lenW, show ("a".data.length) = 1 from by decide]
  have hc : lenW "c" ≤ 10 := by
    simp [lenW, show ("c".data.length) = 1 from by decide]
  simp only [List.mem_cons, List.not_mem_nil, or_false] at hp
  rcases hp with rfl | rfl | rfl
  · rw [show (wordsOf "a b").take 1 = ["a"] from by decide] at hw
    rcases List.mem_singleton.mp hw with rfl
    exact ha
  · rw [show (wordsOf "").take 1 = [] from by decide] at hw
    simp at hw
  · rw [show (wordsOf "c").take 1 = ["c"] from by decide] at hw
    rcases List.mem_singleton.mp hw with rfl
    exact hc

/-! ## Claim C5 -/

theorem wrapWords_width (width : String → ℚ) (maxW : ℚ) (A : List String)
    (h0 : width "" ≤ maxW) :
    ∀ (ws : List String) cur,
      (cur ≠ [] → width (joinSp cur) ≤ maxW ∨ ∃ w, cur = [w] ∧ w ∈ A) →
      (∀ w ∈ ws, w ∈ A) →
      ∀ l ∈ wrapWords width maxW cur ws, width l ≤ maxW ∨ l ∈ A := by
  intro ws
  induction ws with
  | nil =>
    intro cur hcur _ l hl
    by_cases hc : cur = []
    · simp [wrapWords, hc] at hl
    · simp only [wrapWords, if_neg hc] at hl
      rcases List.mem_singleton.mp hl with rfl
      rcases hcur hc with h | ⟨w, rfl, hw⟩
      · exact Or.inl h
      · exact Or.inr (by simpa [joinSp_singleton] using hw)
  | cons w ws ih =>
    intro cur hcur hws l hl
    simp only [wrapWords] at hl
    split at hl
    · rename_i hfit
      exact ih (cur ++ [w]) (fun _ => Or.inl hfit)
        (fun x hx => hws x (by simp [hx])) l hl
    · rcases List.mem_cons.mp hl with rfl | hl'
      · by_cases hc : cur = []
        · subst hc; exact Or.inl h0
        · rcases hcur hc with hb | ⟨w', rfl, hw'⟩
          · exact Or.inl hb
          · exact Or.inr (by simpa [joinSp_singleton] using hw')
      · exact ih [w] (fun _ => Or.inr ⟨w, rfl, hws w (by simp)⟩)
          (fun x hx => hws x (by simp [hx])) l hl'

/-- Claim C5: every wrapper output line measures at most `maxW`, except a line
that is a single input word (placed alone, never broken mid-word) whose own
width exceeds `maxW`.  The hypothesis `width "" ≤ maxW` is what any real
measurer gives (the empty string measures 0) whenever `maxW ≥ 0`; it covers the
empty marker lines of blank paragraphs. -/
theorem line_width_bound (width : String → ℚ) (maxW : ℚ) (text : String)
    (h0 : width "" ≤ maxW) :
    ∀ l ∈ split_text_to_lines width maxW text,
      width l ≤ maxW ∨ ∃ p ∈ paragraphsOf text, l ∈ wordsOf p := by
  intro l hl
  rcases List.mem_flatten.mp hl with ⟨seg, hseg, hlseg⟩
  rcases List.mem_map.mp hseg with ⟨p, hp, rfl⟩
  by_cases hpe : p = ""
  · simp only [paraLines, if_pos hpe] at hlseg
    rcases List.mem_singleton.mp hlseg with rfl
    exact Or.inl h0
  · have hres := wrapWords_width width maxW (wordsOf p) h0 (wordsOf p) []
      (fun hc => absurd rfl hc) (fun _ hx => hx) l
      (by simpa [paraLines, hpe] using hlseg)
    rcases hres with hb | hw
    · exact Or.inl hb
    · exact Or.inr ⟨p, hp, hw⟩

/-- Claim C5 witness: the theorem applied to the concrete input "ab cd\nx" at
maxWidth 3 with one unit per character (the empty string measures 0 ≤ 3),
instantiated at the concrete output line "ab". -/
theorem line_width_bound_witness :
    lenW "ab" ≤ 3 ∨ ∃ p ∈ paragraphsOf "ab cd\nx", "ab" ∈ wordsOf p := by
  have l2 : lenW "ab" = 2 := by
    simp [lenW, show ("ab".data.length) = 2 from by decide]
  have l5 : lenW "ab cd" = 5 := by
    simp [lenW, show ("ab cd".data.length) = 5 from by decide]
  have l1 : lenW "x" = 1 := by
    simp [lenW, show ("x".data.length) = 1 from by decide]
  have he : split_text_to_lines lenW 3 "ab cd\nx" = ["ab", "cd", "x"] := by
    norm_num [split_text_to_lines,
      show paragraphsOf "ab cd\nx" = ["ab cd", "x"] from by decide,
      paraLines, wrapWords,
      show wordsOf "ab cd" = ["ab", "cd"] from by decide,
      show wordsOf "x" = ["x"] from by decide,
      show ("ab cd" : String) ≠ "" from by decide,
      show ("x" : String) ≠ "" from by decide,
      show joinSp ["ab"] = "ab" from by decide,
      show joinSp ["ab", "cd"] = "ab cd" from by decide,
      show joinSp ["cd"] = "cd" from by decide,
      show joinSp ["x"] = "x" from by decide,
      l2, l5, l1]
  exact line_width_bound lenW 3 "ab cd\nx"
    (by norm_num [lenW, show ("".data.length) = 0 from by decide])
    "ab" (by rw [he]; simp)

/-! ## Claim C4 -/

theorem titleSizes_mem (t : ℕ) : t ∈ titleSizes ↔ ∃ j, j ≤ 18 ∧ t = 36 + 2 * j := by
  simp only [titleSizes, List.mem_map, List.mem_range]
  constructor
  · rintro ⟨k, hk, rfl⟩
    exact ⟨18 - k, by omega, by omega⟩
  · rintro ⟨j, hj, rfl⟩
    exact ⟨18 - j, by omega, by omega⟩

theorem titleFitAux_spec (widthAt : ℕ → ℚ) (maxW : ℚ) (n : ℕ) :
    (∃ k, k ≤ n ∧ titleFitAux widthAt maxW n = 36 + 2 * k) ∧
    (∀ j, 1 ≤ j → j ≤ n → widthAt (36 + 2 * j) ≤ maxW →
      36 + 2 * j ≤ titleFitAux widthAt maxW n) ∧
    ((∃ j, 1 ≤ j ∧ j ≤ n ∧ widthAt (36 + 2 * j) ≤ maxW) →
      widthAt (titleFitAux widthAt maxW n) ≤ maxW) ∧
    ((∀ j, 1 ≤ j → j ≤ n → maxW < widthAt (36 + 2 * j)) →
      titleFitAux widthAt maxW n = 36) := by
  induction n with
  | zero =>
    refine ⟨⟨0, by omega, rfl⟩, ?_, ?_, ?_⟩
    · intro j h1 h2; omega
    · rintro ⟨j, h1, h2, _⟩; omega
    · intro _; rfl
  | succ n ih =>
    by_cases hc : maxW < widthAt (36 + 2 * (n + 1))
    · have he : titleFitAux widthAt maxW (n + 1) = titleFitAux widthAt maxW n := by
        simp [titleFitAux, hc]
      rw [he]
      obtain ⟨h1, h2, h3, h4⟩ := ih
      refine ⟨?_, ?_, ?_, ?_⟩
      · obtain ⟨k, hk, he2⟩ := h1; exact ⟨k, by omega, he2⟩
      · intro j hj1 hj2 hjw
        have hjn : j ≤ n := by
          by_contra hj
          have hj' : j = n + 1 := by omega
          subst hj'
          exact absurd hjw (not_le.mpr hc)
        exact h2 j hj1 hjn hjw
      · rintro ⟨j, hj1, hj2, hjw⟩
        have hjn : j ≤ n := by
          by_contra hj
          have hj' : j = n + 1 := by omega
          subst hj'
          exact absurd hjw (not_le.mpr hc)
        exact h3 ⟨j, hj1, hjn, hjw⟩
      · intro hall
        exact h4 (fun j a b => hall j a (by omega))
    · have he : titleFitAux widthAt maxW (n + 1) = 36 + 2 * (n + 1) := by
        simp [titleFitAux, hc]
      rw [he]
      refine ⟨⟨n + 1, le_refl _, rfl⟩, ?_, ?_, ?_⟩
      · intro j _ hj2 _; omega
      · intro _; exact not_lt.mp hc
      · intro hall
        exact absurd (hall (n + 1) (by omega) (le_refl _)) hc

/-- Claim C4: the chosen title size is a member of the descending sequence
72, 70, ..., 36, lies between 36 and 72, is at least every size of the sequence
at which the measured title width fits the target width, fits itself whenever
any size of the sequence fits, equals 36 when no size fits, and is exactly the
size installed by the title band's `setFont` before the title is drawn. -/
theorem title_autofit (widthAt : ℕ → ℚ) (maxW : ℚ) :
    titleFit widthAt maxW ∈ titleSizes ∧
    36 ≤ titleFit widthAt maxW ∧
    titleFit widthAt maxW ≤ 72 ∧
    (∀ t ∈ titleSizes, widthAt t ≤ maxW → t ≤ titleFit widthAt maxW) ∧
    ((∃ t ∈ titleSizes, widthAt t ≤ maxW) → widthAt (titleFit widthAt maxW) ≤ maxW) ∧
    ((∀ t ∈ titleSizes, maxW < widthAt t) → titleFit widthAt maxW = 36) ∧
    (∀ (env : Env) (content : PosterContent) (W H : ℚ) (L : Layout),
      Cmd.setFont "Helvetica-Bold"
        ((titleFit (fun s => env.width "Helvetica-Bold" (s : ℚ) content.title)
            (W - 2 * L.margins_mm * mm) : ℕ) : ℚ) ∈
        draw_title_band env content W H L) := by
  obtain ⟨⟨k, hk, hek⟩, h2, h3, h4⟩ := titleFitAux_spec widthAt maxW 18
  have htf : titleFit widthAt maxW = titleFitAux widthAt maxW 18 := rfl
  rw [htf]
  refine ⟨(titleSizes_mem _).mpr ⟨k, hk, hek⟩, by omega, by omega, ?_, ?_, ?_, ?_⟩
  · intro t ht htw
    obtain ⟨j, hj, rfl⟩ := (titleSizes_mem t).mp ht
    rcases Nat.eq_zero_or_pos j with rfl | hj1
    · omega
    · exact h2 j hj1 hj htw
  · rintro ⟨t, ht, htw⟩
    obtain ⟨j, hj, rfl⟩ := (titleSizes_mem t).mp ht
    by_cases hex : ∃ i, 1 ≤ i ∧ i ≤ 18 ∧ widthAt (36 + 2 * i) ≤ maxW
    · exact h3 hex
    · push_neg at hex
      have h36 : titleFitAux widthAt maxW 18 = 36 :=
        h4 (fun i a b => hex i a b)
      rw [h36]
      rcases Nat.eq_zero_or_pos j with rfl | hj1
      · simpa using htw
      · exact absurd htw (not_le.mpr (hex j hj1 hj))
  · intro hall
    exact h4 (fun j a b => hall (36 + 2 * j) ((titleSizes_mem _).mpr ⟨j, b, rfl⟩))
  · intro env content W H L
    simp [draw_title_band, titleFit]

/-- Claim C4 witness: with an everywhere-zero measurer and target width 0 every
size fits, so the chosen size is 72 and fits; with an everywhere-one measurer
and target 0 no size fits, so the chosen size is exactly 36. -/
theorem title_autofit_witness :
    72 ≤ titleFit (fun _ => (0 : ℚ)) 0 ∧ (0 : ℚ) ≤ 0 ∧
    titleFit (fun _ => (1 : ℚ)) 0 = 36 := by
  refine ⟨(title_autofit (fun _ => (0 : ℚ)) 0).2.2.2.1 72 (by decide) (le_refl 0),
          (title_autofit (fun _ => (0 : ℚ)) 0).2.2.2.2.1 ⟨72, by decide, le_refl 0⟩,
          (title_autofit (fun _ => (1 : ℚ)) 0).2.2.2.2.2.1 ?_⟩
  intro t _
  norm_num

/-! ## Claim C2 -/

theorem bodyLoop_baseline (area_x area_y lh : ℚ) (lines : List String) :
    ∀ y x' y' s, Cmd.drawString x' y' s ∈ (bodyLoop area_x area_y lh y lines).1 →
      area_y ≤ y' := by
  induction lines with
  | nil => intro y x' y' s h; simp [bodyLoop] at h
  | cons l ls ih =>
    intro y x' y' s h
    by_cases hy : y < area_y
    · simp [bodyLoop, hy] at h
    · simp only [bodyLoop, if_neg hy] at h
      by_cases hl : l = ""
      · rw [if_pos hl] at h
        exact ih _ x' y' s h
      · rw [if_neg hl] at h
        rcases List.mem_cons.mp h with he | h'
        · cases he
          exact not_lt.mp hy
        · exact ih _ x' y' s h'

theorem bulletCont_baseline (bx area_y lh : ℚ) (rest : List String) :
    ∀ y x' y' s, Cmd.drawString x' y' s ∈ (bulletCont bx area_y lh y rest).1 →
      area_y ≤ y' := by
  induction rest with
  | nil => intro y x' y' s h; simp [bulletCont] at h
  | cons l ls ih =>
    intro y x' y' s h
    by_cases hy : y < area_y
    · simp [bulletCont, hy] at h
    · simp only [bulletCont, if_neg hy] at h
      rcases List.mem_cons.mp h with he | h'
      · cases he
        exact not_lt.mp hy
      · exact ih _ x' y' s h'

theorem bulletLoop_baseline (width : String → ℚ)
    (area_x area_y area_w bullet_indent lh : ℚ) (bl : List String) :
    ∀ y x' y' s,
      Cmd.drawString x' y' s ∈
        (bulletLoop width area_x area_y area_w bullet_indent lh y bl).1 →
      area_y ≤ y' := by
  induction bl with
  | nil => intro y x' y' s h; simp [bulletLoop] at h
  | cons b bs ih =>
    intro y x' y' s h
    by_cases hy : y < area_y
    · simp [bulletLoop, hy] at h
    · simp only [bulletLoop, if_neg hy] at h
      split at h
      · rcases List.mem_append.mp h with hh | hr
        · rcases List.mem_cons.mp hh with he | hh'
          · cases he; exact not_lt.mp hy
          · rcases List.mem_singleton.mp hh' with he
            cases he; exact not_lt.mp hy
        · exact bulletCont_baseline _ _ _ _ _ x' y' s hr
      · rcases List.mem_append.mp h with hh | hr2
        · rcases List.mem_append.mp hh with hh' | hr
          · rcases List.mem_cons.mp hh' with he | hh''
            · cases he; exact not_lt.mp hy
            · rcases List.mem_singleton.mp hh'' with he
              cases he; exact not_lt.mp hy
          · exact bulletCont_baseline _ _ _ _ _ x' y' s hr
        · exact ih _ x' y' s hr2

theorem imagesLoop_bound (env : Env) (area_x area_y area_w cap_size : ℚ)
    (specs : List ImageSpec) :
    ∀ y p x' y' w h,
      Cmd.drawImage p x' y' w h ∈
        (imagesLoop env area_x area_y area_w cap_size y specs).1 →
      area_y + 24 ≤ y' := by
  induction specs with
  | nil => intro y p x' y' w h hm; simp [imagesLoop] at hm
  | cons spec rest ih =>
    intro y p x' y' w h hm
    by_cases hy : y < area_y
    · simp [imagesLoop, hy] at hm
    · simp only [imagesLoop, if_neg hy] at hm
      split at hm
      · exact ih _ p x' y' w h hm
      · split at hm
        · exact ih _ p x' y' w h hm
        · split at hm
          · exact ih _ p x' y' w h hm
          · split at hm
            · simp at hm
            · rename_i hcross
              rcases List.mem_cons.mp hm with he | hm'
              · cases he
                linarith [not_lt.mp hcross]
              · rcases List.mem_append.mp hm' with hc | hr
                · split at hc <;> simp at hc
                · exact ih _ p x' y' w h hr

/-- Claim C2: the section flow checks the cursor against the area bottom before
each body line, each bullet, and each bullet continuation line, returning the
current cursor unchanged the moment it is below `area_y`; every body or bullet
`drawString` it emits has baseline at or above `area_y`; each image draw is
additionally pre-checked with the 24-unit caption allowance, so a drawn image's
bottom edge is at least 24 units above `area_y`, and the image loop likewise
returns the current cursor unchanged when the cursor is already below. -/
theorem section_overflow_guard (width : String → ℚ) (env : Env)
    (area_x area_y area_w bullet_indent lh cap_size : ℚ) :
    (∀ (y : ℚ) l ls, y < area_y →
      bodyLoop area_x area_y lh y (l :: ls) = ([], y, true)) ∧
    (∀ (y : ℚ) lines x' y' s,
      Cmd.drawString x' y' s ∈ (bodyLoop area_x area_y lh y lines).1 →
      area_y ≤ y') ∧
    (∀ (y : ℚ) b bs, y < area_y →
      bulletLoop width area_x area_y area_w bullet_indent lh y (b :: bs) =
        ([], y, true)) ∧
    (∀ (y : ℚ) rest wl, y < area_y →
      bulletCont (area_x + bullet_indent) area_y lh y (wl :: rest) =
        ([], y, true)) ∧
    (∀ (y : ℚ) bl x' y' s,
      Cmd.drawString x' y' s ∈
        (bulletLoop width area_x area_y area_w bullet_indent lh y bl).1 →
      area_y ≤ y') ∧
    (∀ (y : ℚ) spec rest, y < area_y →
      imagesLoop env area_x area_y area_w cap_size y (spec :: rest) =
        ([], y, true)) ∧
    (∀ (y : ℚ) specs p x' y' w h,
      Cmd.drawImage p x' y' w h ∈
        (imagesLoop env area_x area_y area_w cap_size y specs).1 →
      area_y + 24 ≤ y') := by
  refine ⟨?_, ?_, ?_, ?_, ?_, ?_, ?_⟩
  · intro y l ls h; simp [bodyLoop, h]
  · intro y lines x' y' s h; exact bodyLoop_baseline _ _ _ _ _ x' y' s h
  · intro y b bs h; simp [bulletLoop, h]
  · intro y rest wl h; simp [bulletCont, h]
  · intro y bl x' y' s h; exact bulletLoop_baseline _ _ _ _ _ _ _ _ x' y' s h
  · intro y spec rest h; simp [imagesLoop, h]
  · intro y specs p x' y' w h hm; exact imagesLoop_bound _ _ _ _ _ _ _ p x' y' w h hm

/-- Claim C2 witness: the guard applied at concrete cursors — a cursor of 5 in
an area with bottom 10 returns unchanged from each loop, a drawn body line and
bullet at cursor 100 with bottom 0 have baselines at or above 0, and a drawn
100-unit-tall image at cursor 1000 has its bottom edge at 900 ≥ 0 + 24. -/
theorem section_overflow_guard_witness :
    bodyLoop 0 10 35 5 ["a"] = ([], 5, true) ∧
    bulletLoop lenW 0 10 100 8 35 5 ["b"] = ([], 5, true) ∧
    bulletCont (0 + 8) 10 35 5 ["w"] = ([], 5, true) ∧
    imagesLoop env0 0 10 100 16 5 [specNone] = ([], 5, true) ∧
    ((0 : ℚ) ≤ 100) ∧ ((0 : ℚ) ≤ 100) ∧ ((0 : ℚ) + 24 ≤ 900) := by
  have hb : bodyLoop 0 0 35 100 ["hi"] = ([Cmd.drawString 0 100 "hi"], 65, false) := by
    norm_num [bodyLoop, show ("hi" : String) ≠ "" from by decide]
  have hbl : bulletLoop lenW 0 0 100 8 35 100 ["b"] =
      ([Cmd.drawString 0 100 "•", Cmd.drawString (0 + 8) 100 "b"], 65, false) := by
    have hsp : split_text_to_lines lenW 92 "b" = ["b"] := by
      have hp : paragraphsOf "b" = ["b"] := by decide
      have hw : wordsOf "b" = ["b"] := by decide
      have hlen : lenW "b" = 1 := by
        simp [lenW, show ("b".data.length) = 1 from by decide]
      simp only [split_text_to_lines, hp, List.map_cons, List.map_nil,
        paraLines, if_neg (show ("b" : String) ≠ "" from by decide), hw]
      simp only [wrapWords, List.nil_append, joinSp_singleton, hlen]
      rw [if_pos (by norm_num)]
      simp [wrapWords, joinSp_singleton]
    norm_num [bulletLoop, hsp, bulletCont]
  have hi : imagesLoop envImg 0 0 200 16 1000 [specP] =
      ([Cmd.drawImage "p" 0 900 200 100], 894, false) := by
    norm_num [imagesLoop, specP, envImg, imageFit, min_def,
      show ("p" : String) ≠ "" from by decide]
  refine ⟨(section_overflow_guard lenW env0 0 10 100 8 35 16).1 5 "a" [] (by norm_num),
          (section_overflow_guard lenW env0 0 10 100 8 35 16).2.2.1 5 "b" [] (by norm_num),
          (section_overflow_guard lenW env0 0 10 100 8 35 16).2.2.2.1 5 [] "w" (by norm_num),
          (section_overflow_guard lenW env0 0 10 100 8 35 16).2.2.2.2.2.1 5 specNone [] (by norm_num),
          (section_overflow_guard lenW env0 0 0 100 8 35 16).2.1 100 ["hi"] 0 100 "hi" (by rw [hb]; simp),
          (section_overflow_guard lenW env0 0 0 100 8 35 16).2.2.2.2.1 100 ["b"] 0 100 "•" (by rw [hbl]; simp),
          (section_overflow_guard lenW envImg 0 0 200 8 35 16).2.2.2.2.2.2 1000 [specP] "p" 0 900 200 100 (by rw [hi]; simp)⟩

/-! ## Claim C8 -/

theorem imageFit_spec (iw ih maxW : ℚ) (hiw : 0 < iw) (hih : 0 < ih) :
    (imageFit iw ih maxW).1 * ih = (imageFit iw ih maxW).2 * iw ∧
    (imageFit iw ih maxW).1 ≤ maxW ∧ (imageFit iw ih maxW).2 ≤ 4000 := by
  unfold imageFit
  refine ⟨by ring, ?_, ?_⟩
  · calc iw * min (maxW / iw) (4000 / ih) ≤ iw * (maxW / iw) :=
        mul_le_mul_of_nonneg_left (min_le_left _ _) (le_of_lt hiw)
      _ = maxW := by field_simp
  · calc ih * min (maxW / iw) (4000 / ih) ≤ ih * (4000 / ih) :=
        mul_le_mul_of_nonneg_left (min_le_right _ _) (le_of_lt hih)
      _ = 4000 := by field_simp

theorem logoFit_spec (iw ih : ℚ) (hiw : 0 < iw) (hih : 0 < ih) :
    (logoFit iw ih).1 * ih = (logoFit iw ih).2 * iw ∧
    (logoFit iw ih).2 ≤ 70 ∧ (logoFit iw ih).1 ≤ 2000 := by
  unfold logoFit
  refine ⟨by ring, ?_, ?_⟩
  · calc ih * min (70 / ih) (2000 / iw) ≤ ih * (70 / ih) :=
        mul_le_mul_of_nonneg_left (min_le_left _ _) (le_of_lt hih)
      _ = 70 := by field_simp
  · calc iw * min (70 / ih) (2000 / iw) ≤ iw * (2000 / iw) :=
        mul_le_mul_of_nonneg_left (min_le_right _ _) (le_of_lt hiw)
      _ = 2000 := by field_simp

theorem imagesLoop_fit (env : Env) (area_x area_y area_w cap_size : ℚ)
    (specs : List ImageSpec) :
    ∀ y p x' y' w h,
      Cmd.drawImage p x' y' w h ∈
        (imagesLoop env area_x area_y area_w cap_size y specs).1 →
      ∃ iw ih, env.readImage p = some (iw, ih) ∧
        w = (imageFit iw ih area_w).1 ∧ h = (imageFit iw ih area_w).2 := by
  induction specs with
  | nil => intro y p x' y' w h hm; simp [imagesLoop] at hm
  | cons spec rest ihr =>
    intro y p x' y' w h hm
    by_cases hy : y < area_y
    · simp [imagesLoop, hy] at hm
    · simp only [imagesLoop, if_neg hy] at hm
      split at hm
      · exact ihr _ p x' y' w h hm
      · split at hm
        · exact ihr _ p x' y' w h hm
        · split at hm
          · exact ihr _ p x' y' w h hm
          · rename_i path hpath iwih iw ih hread
            split at hm
            · simp at hm
            · rcases List.mem_cons.mp hm with he | hm'
              · injection he with h1 h2 h3 h4 h5
                subst h1
                exact ⟨iw, ih, hread, h4, h5⟩
              · rcases List.mem_append.mp hm' with hc | hr
                · split at hc <;> simp at hc
                · exact ihr _ p x' y' w h hr

theorem logosLoop_fit (env : Env) (y0 : ℚ) (logos : List String) :
    ∀ x p x' y' w h,
      Cmd.drawImage p x' y' w h ∈ logosLoop env y0 x logos →
      ∃ iw ih, env.readImage p = some (iw, ih) ∧
        w = (logoFit iw ih).1 ∧ h = (logoFit iw ih).2 := by
  induction logos with
  | nil => intro x p x' y' w h hm; simp [logosLoop] at hm
  | cons q rest ihr =>
    intro x p x' y' w h hm
    simp only [logosLoop] at hm
    split at hm
    · exact ihr _ p x' y' w h hm
    · rename_i iwih iw ih hread
      rcases List.mem_cons.mp hm with he | hm'
      · injection he with h1 h2 h3 h4 h5
        subst h1
        exact ⟨iw, ih, hread, h4, h5⟩
      · exact ihr _ p x' y' w h hm'

/-- Claim C8: every image a section draws has draw dimensions produced by the
aspect-preserving fit — for positive intrinsic dimensions the drawn width and
height satisfy `w * ih = h * iw` (same aspect ratio), `w ≤ area_w` and
`h ≤ 4000`; every drawn logo likewise preserves its aspect ratio with height at
most 70 (and width at most 2000). -/
theorem image_aspect_fit :
    (∀ (env : Env) (area_x area_y area_w cap_size y : ℚ) (specs : List ImageSpec)
       (p : String) (x' y' w h iw ih : ℚ),
      Cmd.drawImage p x' y' w h ∈
        (imagesLoop env area_x area_y area_w cap_size y specs).1 →
      env.readImage p = some (iw, ih) → 0 < iw → 0 < ih →
      w * ih = h * iw ∧ w ≤ area_w ∧ h ≤ 4000) ∧
    (∀ (env : Env) (y0 x : ℚ) (logos : List String)
       (p : String) (x' y' w h iw ih : ℚ),
      Cmd.drawImage p x' y' w h ∈ logosLoop env y0 x logos →
      env.readImage p = some (iw, ih) → 0 < iw → 0 < ih →
      w * ih = h * iw ∧ h ≤ 70 ∧ w ≤ 2000) := by
  constructor
  · intro env area_x area_y area_w cap_size y specs p x' y' w h iw ih hm hread hiw hih
    obtain ⟨iw0, ih0, hread0, hw, hh⟩ :=
      imagesLoop_fit env area_x area_y area_w cap_size specs y p x' y' w h hm
    rw [hread] at hread0
    injection hread0 with hp
    injection hp with h1 h2
    subst h1 h2 hw hh
    exact imageFit_spec iw ih area_w hiw hih
  · intro env y0 x logos p x' y' w h iw ih hm hread hiw hih
    obtain ⟨iw0, ih0, hread0, hw, hh⟩ :=
      logosLoop_fit env y0 logos x p x' y' w h hm
    rw [hread] at hread0
    injection hread0 with hp
    injection hp with h1 h2
    subst h1 h2 hw hh
    exact logoFit_spec iw ih hiw hih

theorem imagesLoop_evalP : imagesLoop envImg 0 0 200 16 1000 [specP] =
    ([Cmd.drawImage "p" 0 900 200 100], 894, false) := by
  norm_num [imagesLoop, specP, envImg, imageFit, min_def,
    show ("p" : String) ≠ "" from by decide]

theorem logosLoop_evalQ : logosLoop envImg 1000 500 ["q"] =
    [Cmd.drawImage "q" 360 930 140 70] := by
  norm_num [logosLoop, envImg, logoFit, min_def]

/-- Claim C8 witness: the theorem applied to a 100 × 50 image drawn by the
section loop into a 200-wide area (drawn 200 × 100) and to the same image drawn
as a logo (drawn 140 × 70). -/
theorem image_aspect_fit_witness :
    ((200 : ℚ) * 50 = 100 * 100 ∧ (200 : ℚ) ≤ 200 ∧ (100 : ℚ) ≤ 4000) ∧
    ((140 : ℚ) * 50 = 70 * 100 ∧ (70 : ℚ) ≤ 70 ∧ (140 : ℚ) ≤ 2000) :=
  ⟨image_aspect_fit.1 envImg 0 0 200 16 1000 [specP] "p" 0 900 200 100 100 50
      (by rw [imagesLoop_evalP]; simp) rfl (by norm_num) (by norm_num),
   image_aspect_fit.2 envImg 1000 500 ["q"] "q" 360 930 140 70 100 50
      (by rw [logosLoop_evalQ]; simp) rfl (by norm_num) (by norm_num)⟩

/-! ## Claims C9 and C10 -/

theorem build_poster_eq (env : Env) (d : InputData) (t : String)
    (h : d.title = some t) :
    build_poster env d = Except.ok (mainCmds env d t ++ footerCmds d) := by
  simp [build_poster, h]

/-- Claim C9: a section image whose path is missing, empty, non-existent, or
unreadable is skipped — the loop continues on the remaining images from the
same cursor; a logo whose resolution fails is likewise skipped with the x
cursor unchanged; and a render with a present title always returns normally,
so no resource failure propagates out of `build_poster`. -/
theorem resource_error_skip :
    (∀ (env : Env) (area_x area_y area_w cap_size y : ℚ) (spec : ImageSpec)
       (rest : List ImageSpec),
      area_y ≤ y →
      (spec.path = none ∨ ∃ p, spec.path = some p ∧
        (p = "" ∨ env.pathExists p = false ∨ env.readImage p = none)) →
      imagesLoop env area_x area_y area_w cap_size y (spec :: rest) =
        imagesLoop env area_x area_y area_w cap_size y rest) ∧
    (∀ (env : Env) (y0 x : ℚ) (p : String) (rest : List String),
      env.readImage p = none →
      logosLoop env y0 x (p :: rest) = logosLoop env y0 x rest) ∧
    (∀ (env : Env) (d : InputData) (t : String), d.title = some t →
      renderOk (build_poster env d) = true) := by
  refine ⟨?_, ?_, ?_⟩
  · intro env area_x area_y area_w cap_size y spec rest hy hfail
    simp only [imagesLoop, if_neg (not_lt.mpr hy)]
    rcases hfail with hn | ⟨p, hp, hcase⟩
    · simp only [hn]
    · rcases hcase with rfl | hpe | hre
      · simp [hp]
      · simp [hp, hpe]
      · simp only [hp]
        by_cases hskip : p = "" ∨ ¬ env.pathExists p = true
        · rw [if_pos hskip]
        · rw [if_neg hskip]
          simp only [hre]
  · intro env y0 x p rest h
    simp only [logosLoop, h]
  · intro env d t h
    rw [build_poster_eq env d t h]
    rfl

/-- Claim C9 witness: the theorem applied to a missing-path image entry, to a
logo that fails to load under the all-failing stub renderer, and to a concrete
input with a present title. -/
theorem resource_error_skip_witness :
    imagesLoop env0 0 0 100 16 5 [specNone] = imagesLoop env0 0 0 100 16 5 [] ∧
    logosLoop env0 1 2 ["x"] = logosLoop env0 1 2 [] ∧
    renderOk (build_poster env0 dFoot) = true :=
  ⟨resource_error_skip.1 env0 0 0 100 16 5 specNone [] (by norm_num) (Or.inl rfl),
   resource_error_skip.2.1 env0 1 2 "x" [] rfl,
   resource_error_skip.2.2 env0 dFoot "T" rfl⟩

/-- Claim C10: theme selection is an exact string match on "light" — the light
palette is chosen for exactly that value, any other theme value (capitalized,
misspelled, absent, arbitrary) selects the dark page background and dark title
band palette, and no theme value makes the render fail. -/
theorem theme_exact_match :
    pageBg (some "light") = Color.white ∧
    bandBg (some "light") = Color.whitesmoke ∧
    bandFg (some "light") = Color.black ∧
    (∀ t : Option String, t ≠ some "light" →
      pageBg t = Color.black ∧ bandBg t = Color.darkgray ∧
        bandFg t = Color.whitesmoke) ∧
    (∀ (env : Env) (d : InputData) (t : String), d.title = some t →
      renderOk (build_poster env d) = true) := by
  refine ⟨rfl, rfl, rfl, ?_, ?_⟩
  · intro t ht
    exact ⟨by simp [pageBg, ht], by simp [bandBg, ht], by simp [bandFg, ht]⟩
  · intro env d t h
    rw [build_poster_eq env d t h]
    rfl

/-- Claim C10 witness: the theorem applied to the capitalized theme value
"Light" (dark palette selected) and to a render of an input whose theme is not
"light" (it still succeeds). -/
theorem theme_exact_match_witness :
    (pageBg (some "Light") = Color.black ∧ bandBg (some "Light") = Color.darkgray ∧
      bandFg (some "Light") = Color.whitesmoke) ∧
    renderOk (build_poster env0 dNeg) = true :=
  ⟨theme_exact_match.2.2.2.1 (some "Light") (by decide),
   theme_exact_match.2.2.2.2 env0 dNeg "T" rfl⟩

/-! ## Claim C1 -/

/-- Claim C1: after flowing a section, the paginator advances exactly when the
returned cursor is strictly below the area bottom plus the 60-unit slack.
Without advance the state keeps its column and x position and the next section
starts at the returned cursor minus the 18-unit gap.  On advance the column
index increments; if it is still below the column count the cursor resets to
the column top at the next column's x and the same section is re-flowed exactly
once there; if the incremented index reaches the column count, a new page is
started (`showPage`, background repaint, title band repaint), the index resets
to 0, and the same section is re-flowed exactly once from the top of the first
column — in every case the next section then starts in that column at the
returned cursor minus 18. -/
theorem paginator_step (env : Env) (content : PosterContent) (L : Layout)
    (W H : ℚ) (st : FlowState) (sec : Section) :
    (bottomY L + 60 ≤ (draw_section env L sec st.x (bottomY L) (colWidth L W) st.y).2 →
      flowStep env content L W H st sec =
        { st with
          y := (draw_section env L sec st.x (bottomY L) (colWidth L W) st.y).2 - 18,
          cmds := st.cmds ++
            (draw_section env L sec st.x (bottomY L) (colWidth L W) st.y).1 }) ∧
    ((draw_section env L sec st.x (bottomY L) (colWidth L W) st.y).2 < bottomY L + 60 →
      st.cur_col + 1 < L.columns →
      flowStep env content L W H st sec =
        { cur_col := st.cur_col + 1,
          x := leftX L + ((st.cur_col : ℚ) + 1) * (colWidth L W + gutterW L),
          y := (draw_section env L sec
                  (leftX L + ((st.cur_col : ℚ) + 1) * (colWidth L W + gutterW L))
                  (bottomY L) (colWidth L W) (topY L H)).2 - 18,
          cmds := st.cmds ++
            (draw_section env L sec st.x (bottomY L) (colWidth L W) st.y).1 ++
            (draw_section env L sec
              (leftX L + ((st.cur_col : ℚ) + 1) * (colWidth L W + gutterW L))
              (bottomY L) (colWidth L W) (topY L H)).1 }) ∧
    ((draw_section env L sec st.x (bottomY L) (colWidth L W) st.y).2 < bottomY L + 60 →
      L.columns ≤ st.cur_col + 1 →
      flowStep env content L W H st sec =
        { cur_col := 0,
          x := leftX L,
          y := (draw_section env L sec (leftX L) (bottomY L) (colWidth L W)
                  (topY L H)).2 - 18,
          cmds := st.cmds ++
            (draw_section env L sec st.x (bottomY L) (colWidth L W) st.y).1 ++
            newPageCmds env content W H L ++
            (draw_section env L sec (leftX L) (bottomY L) (colWidth L W)
              (topY L H)).1 }) := by
  refine ⟨?_, ?_, ?_⟩
  · intro h
    simp only [flowStep, if_neg (not_lt.mpr h)]
  · intro h hcol
    have hnc : ¬ L.columns ≤ st.cur_col + 1 := not_le.mpr hcol
    simp only [flowStep, if_pos h, if_neg hnc, Nat.cast_add, Nat.cast_one,
      List.append_nil]
  · intro h hcol
    simp only [flowStep, if_pos h, if_pos hcol, Nat.cast_zero, zero_mul, add_zero]

theorem draw_section_body_eval (aw : ℚ) :
    split_text_to_lines (env0.width "Helvetica" 28) aw "" = [""] := by
  simp [split_text_to_lines, show paragraphsOf "" = [""] from by decide, paraLines]

theorem draw_section_ok (x y aw : ℚ) (h : 52 ≤ y) :
    draw_section env0 L2 sec0 x 0 aw y =
      ([Cmd.setFont "Helvetica-Bold" 44, Cmd.setFillColor Color.black,
        Cmd.drawString x y "T", Cmd.setFont "Helvetica" 28], y - 73) := by
  have h1 : ¬ (y - (44 + 8) < (0 : ℚ)) := by linarith
  have hbody : bodyLoop x 0 (28 * (5 / 4)) (y - (44 + 8)) [""] =
      ([], y - (44 + 8) - 28 * (5 / 4) * (3 / 5), false) := by
    simp only [bodyLoop]
    rw [if_neg h1]
    simp
  simp only [draw_section, sec0, L2]
  rw [draw_section_body_eval aw, hbody]
  norm_num [imagesLoop]
  ring

theorem draw_section_overflow (x y aw : ℚ) (h : y < 52) :
    draw_section env0 L2 sec0 x 0 aw y =
      ([Cmd.setFont "Helvetica-Bold" 44, Cmd.setFillColor Color.black,
        Cmd.drawString x y "T", Cmd.setFont "Helvetica" 28], y - 52) := by
  have h1 : y - (44 + 8) < (0 : ℚ) := by linarith
  have hbody : bodyLoop x 0 (28 * (5 / 4)) (y - (44 + 8)) [""] =
      ([], y - (44 + 8), true) := by
    simp only [bodyLoop]
    rw [if_pos h1]
  simp only [draw_section, sec0, L2]
  rw [draw_section_body_eval aw, hbody]
  norm_num

theorem bottomY_L2 : bottomY L2 = 0 := by norm_num [bottomY, L2]

theorem colWidth_L2 : colWidth L2 1000 = 500 := by
  norm_num [colWidth, rightX, leftX, gutterW, L2]

theorem topY_L2 : topY L2 1000 = 1000 := by norm_num [topY, L2]

/-- Claim C1 witness: the step theorem applied to a roomy column (no advance,
cursor 427 − 18), to an exhausted first of two columns (advance to column 1 and
re-flow from the top), and to an exhausted last column (new page, reset to
column 0, re-flow from the top). -/
theorem paginator_step_witness :
    (flowStep env0 content2 L2 1000 1000 stA sec0 =
      { stA with
        y := (draw_section env0 L2 sec0 stA.x (bottomY L2) (colWidth L2 1000) stA.y).2 - 18,
        cmds := stA.cmds ++
          (draw_section env0 L2 sec0 stA.x (bottomY L2) (colWidth L2 1000) stA.y).1 }) ∧
    (flowStep env0 content2 L2 1000 1000 stB sec0 =
      { cur_col := stB.cur_col + 1,
        x := leftX L2 + ((stB.cur_col : ℚ) + 1) * (colWidth L2 1000 + gutterW L2),
        y := (draw_section env0 L2 sec0
                (leftX L2 + ((stB.cur_col : ℚ) + 1) * (colWidth L2 1000 + gutterW L2))
                (bottomY L2) (colWidth L2 1000) (topY L2 1000)).2 - 18,
        cmds := stB.cmds ++
          (draw_section env0 L2 sec0 stB.x (bottomY L2) (colWidth L2 1000) stB.y).1 ++
          (draw_section env0 L2 sec0
            (leftX L2 + ((stB.cur_col : ℚ) + 1) * (colWidth L2 1000 + gutterW L2))
            (bottomY L2) (colWidth L2 1000) (topY L2 1000)).1 }) ∧
    (flowStep env0 content2 L2 1000 1000 stC sec0 =
      { cur_col := 0,
        x := leftX L2,
        y := (draw_section env0 L2 sec0 (leftX L2) (bottomY L2) (colWidth L2 1000)
                (topY L2 1000)).2 - 18,
        cmds := stC.cmds ++
          (draw_section env0 L2 sec0 stC.x (bottomY L2) (colWidth L2 1000) stC.y).1 ++
          newPageCmds env0 content2 1000 1000 L2 ++
          (draw_section env0 L2 sec0 (leftX L2) (bottomY L2) (colWidth L2 1000)
            (topY L2 1000)).1 }) := by
  have hA : (draw_section env0 L2 sec0 stA.x (bottomY L2) (colWidth L2 1000) stA.y).2 = 427 := by
    rw [show stA.x = 0 from rfl, show stA.y = 500 from rfl, bottomY_L2, colWidth_L2,
      draw_section_ok 0 500 500 (by norm_num)]
    norm_num
  have hB : (draw_section env0 L2 sec0 stB.x (bottomY L2) (colWidth L2 1000) stB.y).2 = -22 := by
    rw [show stB.x = 0 from rfl, show stB.y = 30 from rfl, bottomY_L2, colWidth_L2,
      draw_section_overflow 0 30 500 (by norm_num)]
    norm_num
  have hC : (draw_section env0 L2 sec0 stC.x (bottomY L2) (colWidth L2 1000) stC.y).2 = -22 := by
    rw [show stC.x = 500 from rfl, show stC.y = 30 from rfl, bottomY_L2, colWidth_L2,
      draw_section_overflow 500 30 500 (by norm_num)]
    norm_num
  refine ⟨(paginator_step env0 content2 L2 1000 1000 stA sec0).1 ?_,
          (paginator_step env0 content2 L2 1000 1000 stB sec0).2.1 ?_ (by decide),
          (paginator_step env0 content2 L2 1000 1000 stC sec0).2.2 ?_ (by decide)⟩
  · rw [hA, bottomY_L2]; norm_num
  · rw [hB, bottomY_L2]; norm_num
  · rw [hC, bottomY_L2]; norm_num

/-! ## Claim C6 -/

theorem colWidth_dNeg_neg : colWidth dNeg.layout (dNeg.page_mm.1 * mm) < 0 := by
  norm_num [colWidth, rightX, leftX, gutterW, dNeg, mm]

theorem build_dNeg_ok : renderOk (build_poster env0 dNeg) = true := by
  rw [build_poster_eq env0 dNeg "T" rfl]
  rfl

theorem rect_in_dNeg :
    Cmd.rect 0 0 (dNeg.page_mm.1 * mm) (dNeg.page_mm.2 * mm) true ∈
      cmdsOf (build_poster env0 dNeg) := by
  rw [build_poster_eq env0 dNeg "T" rfl]
  simp [cmdsOf, mainCmds, contentOf, dNeg]

/-- Claim C6 counterexample: the input `dNeg` has a negative computed column
width — a configuration error per the claim — yet `build_poster` does not fail:
it returns normally and its trace contains drawing commands (the full-page
background rectangle among them). -/
theorem config_error_cex :
    colWidth dNeg.layout (dNeg.page_mm.1 * mm) < 0 ∧
    renderOk (build_poster env0 dNeg) = true ∧
    Cmd.rect 0 0 (dNeg.page_mm.1 * mm) (dNeg.page_mm.2 * mm) true ∈
      cmdsOf (build_poster env0 dNeg) :=
  ⟨colWidth_dNeg_neg, build_dNeg_ok, rect_in_dNeg⟩

/-- Claim C6 (amended): a missing required title makes the render fail before
any drawing command is issued (the error is raised before the canvas exists,
and no commands accompany it); a non-positive computed column width, however,
is not detected — the render proceeds normally and issues drawing commands. -/
theorem config_error_behavior :
    (∀ (env : Env) (d : InputData), d.title = none →
      build_poster env d = Except.error "KeyError: title") ∧
    colWidth dNeg.layout (dNeg.page_mm.1 * mm) < 0 ∧
    renderOk (build_poster env0 dNeg) = true ∧
    Cmd.rect 0 0 (dNeg.page_mm.1 * mm) (dNeg.page_mm.2 * mm) true ∈
      cmdsOf (build_poster env0 dNeg) := by
  refine ⟨?_, colWidth_dNeg_neg, build_dNeg_ok, rect_in_dNeg⟩
  intro env d h
  simp [build_poster, h]

/-- Claim C6 witness: the amended theorem applied to the all-defaults input,
whose title key is absent. -/
theorem config_error_behavior_witness :
    build_poster env0 dEmpty = Except.error "KeyError: title" :=
  config_error_behavior.1 env0 dEmpty rfl

/-! ## Claim C7 -/

theorem noRight_nil : noRightCmds [] := by
  intro c hc
  simp at hc

theorem noRight_cons (x : Cmd) (l : List Cmd) (hx : isRightStr x = false)
    (hl : noRightCmds l) : noRightCmds (x :: l) := by
  intro c hc
  rcases List.mem_cons.mp hc with rfl | h
  · exact hx
  · exact hl c h

theorem noRight_append (a b : List Cmd) (ha : noRightCmds a) (hb : noRightCmds b) :
    noRightCmds (a ++ b) := by
  intro c hc
  rcases List.mem_append.mp hc with h | h
  · exact ha c h
  · exact hb c h

theorem noRightCmds_nil_iff : noRightCmds [] ↔ True := by
  simp [noRightCmds]

theorem noRightCmds_cons_iff (x : Cmd) (l : List Cmd) :
    noRightCmds (x :: l) ↔ isRightStr x = false ∧ noRightCmds l := by
  constructor
  · intro h
    exact ⟨h x (by simp), fun c hc => h c (by simp [hc])⟩
  · rintro ⟨hx, hl⟩
    exact noRight_cons x l hx hl

theorem noRightCmds_append_iff (a b : List Cmd) :
    noRightCmds (a ++ b) ↔ noRightCmds a ∧ noRightCmds b := by
  constructor
  · intro h
    exact ⟨fun c hc => h c (by simp [hc]), fun c hc => h c (by simp [hc])⟩
  · rintro ⟨ha, hb⟩
    exact noRight_append a b ha hb

theorem noRight_bodyLoop (area_x area_y lh : ℚ) (lines : List String) :
    ∀ y, noRightCmds (bodyLoop area_x area_y lh y lines).1 := by
  induction lines with
  | nil => intro y; exact noRight_nil
  | cons l ls ih =>
    intro y
    by_cases hy : y < area_y
    · simp only [bodyLoop, if_pos hy]
      exact noRight_nil
    · simp only [bodyLoop, if_neg hy]
      by_cases hl : l = ""
      · rw [if_pos hl]; exact ih _
      · rw [if_neg hl]
        exact noRight_cons _ _ rfl (ih _)

theorem noRight_bulletCont (bx area_y lh : ℚ) (rest : List String) :
    ∀ y, noRightCmds (bulletCont bx area_y lh y rest).1 := by
  induction rest with
  | nil => intro y; exact noRight_nil
  | cons l ls ih =>
    intro y
    by_cases hy : y < area_y
    · simp only [bulletCont, if_pos hy]
      exact noRight_nil
    · simp only [bulletCont, if_neg hy]
      exact noRight_cons _ _ rfl (ih _)

theorem noRight_bulletLoop (width : String → ℚ)
    (area_x area_y area_w bullet_indent lh : ℚ) (bl : List String) :
    ∀ y, noRightCmds (bulletLoop width area_x area_y area_w bullet_indent lh y bl).1 := by
  induction bl with
  | nil => intro y; exact noRight_nil
  | cons b bs ih =>
    intro y
    by_cases hy : y < area_y
    · simp only [bulletLoop, if_pos hy]
      exact noRight_nil
    · simp only [bulletLoop, if_neg hy]
      split
      · exact noRight_append _ _
          (noRight_cons _ _ rfl (noRight_cons _ _ rfl noRight_nil))
          (noRight_bulletCont _ _ _ _ _)
      · exact noRight_append _ _
          (noRight_append _ _
            (noRight_cons _ _ rfl (noRight_cons _ _ rfl noRight_nil))
            (noRight_bulletCont _ _ _ _ _))
          (ih _)

theorem noRight_imagesLoop (env : Env) (area_x area_y area_w cap_size : ℚ)
    (specs : List ImageSpec) :
    ∀ y, noRightCmds (imagesLoop env area_x area_y area_w cap_size y specs).1 := by
  induction specs with
  | nil => intro y; exact noRight_nil
  | cons spec rest ih =>
    intro y
    by_cases hy : y < area_y
    · simp only [imagesLoop, if_pos hy]
      exact noRight_nil
    · simp only [imagesLoop, if_neg hy]
      split
      · exact ih _
      · split
        · exact ih _
        · split
          · exact ih _
          · split
            · exact noRight_nil
            · refine noRight_cons _ _ rfl (noRight_append _ _ ?_ (ih _))
              split
              · exact noRight_nil
              · exact noRight_cons _ _ rfl (noRight_cons _ _ rfl noRight_nil)

theorem noRight_logosLoop (env : Env) (y0 : ℚ) (logos : List String) :
    ∀ x, noRightCmds (logosLoop env y0 x logos) := by
  induction logos with
  | nil => intro x; exact noRight_nil
  | cons p rest ih =>
    intro x
    simp only [logosLoop]
    split
    · exact ih _
    · exact noRight_cons _ _ rfl (ih _)

theorem noRight_draw_title_band (env : Env) (content : PosterContent)
    (W H : ℚ) (L : Layout) :
    noRightCmds (draw_title_band env content W H L) := by
  simp only [draw_title_band]
  simp only [noRightCmds_append_iff, noRightCmds_cons_iff, noRightCmds_nil_iff,
    isRightStr, and_true, true_and]
  refine ⟨⟨?_, ?_⟩, noRight_logosLoop env _ content.logos _⟩
  · cases content.subtitle with
    | none => simp [noRightCmds_nil_iff]
    | some s =>
      by_cases hs : s = "" <;>
        simp [hs, noRightCmds_nil_iff, noRightCmds_cons_iff, isRightStr]
  · cases content.affiliations with
    | none => simp [noRightCmds_nil_iff]
    | some a =>
      by_cases ha : a = "" <;>
        simp [ha, noRightCmds_nil_iff, noRightCmds_cons_iff, isRightStr]

theorem noRight_draw_section (env : Env) (L : Layout) (sec : Section)
    (area_x area_y area_w start_y : ℚ) :
    noRightCmds (draw_section env L sec area_x area_y area_w start_y).1 := by
  simp only [draw_section]
  split
  · simp [noRightCmds_append_iff, noRightCmds_cons_iff, noRightCmds_nil_iff,
      isRightStr, noRight_bodyLoop]
  · split <;> split_ifs <;>
      simp [noRightCmds_append_iff, noRightCmds_cons_iff, noRightCmds_nil_iff,
        isRightStr, noRight_bodyLoop, noRight_bulletLoop, noRight_imagesLoop]

theorem noRight_flowStep (env : Env) (content : PosterContent) (L : Layout)
    (W H : ℚ) (st : FlowState) (sec : Section) (hst : noRightCmds st.cmds) :
    noRightCmds (flowStep env content L W H st sec).cmds := by
  simp only [flowStep]
  split
  · split_ifs <;>
      simp [noRightCmds_append_iff, noRightCmds_cons_iff, noRightCmds_nil_iff,
        isRightStr, hst, noRight_draw_section, noRight_draw_title_band, newPageCmds]
  · simp [noRightCmds_append_iff, hst, noRight_draw_section]

theorem noRight_foldl (env : Env) (content : PosterContent) (L : Layout)
    (W H : ℚ) (secs : List Section) :
    ∀ st : FlowState, noRightCmds st.cmds →
      noRightCmds ((secs.foldl (flowStep env content L W H) st).cmds) := by
  induction secs with
  | nil => intro st h; simpa using h
  | cons sec rest ih =>
    intro st h
    rw [List.foldl_cons]
    exact ih _ (noRight_flowStep env content L W H st sec h)

theorem noRight_mainCmds (env : Env) (d : InputData) (t : String) :
    noRightCmds (mainCmds env d t) := by
  simp only [mainCmds]
  apply noRight_foldl
  simp [noRightCmds_cons_iff, isRightStr, noRight_draw_title_band]

/-- Claim C7 (amended): with a non-empty footer string the render returns the
main trace followed by exactly the footer block — one `setFont`, one
`setFillColor`, and a single right-aligned draw of the footer at the right
content edge; the right-aligned draw is the final command of the document (so
it appears on the last page only and exactly once — the main trace contains no
right-aligned draw), and its baseline sits 10 units *below* the bottom content
margin line (`bottom - 10`), not above it. -/
theorem footer_last_page (env : Env) (d : InputData) (t f : String)
    (ht : d.title = some t) (hf : d.footer = some f) (hfe : f ≠ "") :
    build_poster env d =
      Except.ok (mainCmds env d t ++
        [Cmd.setFont "Helvetica" 20, Cmd.setFillColor Color.black,
         Cmd.drawRightString (rightX d.layout (d.page_mm.1 * mm))
           (bottomY d.layout - 10) f]) ∧
    noRightCmds (mainCmds env d t) ∧
    bottomY d.layout - 10 < bottomY d.layout := by
  refine ⟨?_, noRight_mainCmds env d t, by linarith⟩
  rw [build_poster_eq env d t ht]
  simp [footerCmds, hf, hfe]

/-- Claim C7 counterexample: for the concrete input `dFoot` the only
right-aligned draw command of the whole render — the footer — is issued at
baseline `bottomY - 10`, strictly below the bottom margin line `bottomY`,
refuting the claim that the footer is drawn at a fixed offset *above* the
bottom margin. -/
theorem footer_below_margin_cex :
    Cmd.drawRightString (rightX dFoot.layout (dFoot.page_mm.1 * mm))
      (bottomY dFoot.layout - 10) "F" ∈ cmdsOf (build_poster env0 dFoot) ∧
    (List.filter isRightStr (cmdsOf (build_poster env0 dFoot))).length = 1 ∧
    bottomY dFoot.layout - 10 < bottomY dFoot.layout := by
  have hfc : footerCmds dFoot =
      [Cmd.setFont "Helvetica" 20, Cmd.setFillColor Color.black,
       Cmd.drawRightString (rightX dFoot.layout (dFoot.page_mm.1 * mm))
         (bottomY dFoot.layout - 10) "F"] := by
    simp [footerCmds, show dFoot.footer = some "F" from rfl,
      show ("F" : String) ≠ "" from by decide]
  have he : build_poster env0 dFoot =
      Except.ok (mainCmds env0 dFoot "T" ++ footerCmds dFoot) :=
    build_poster_eq env0 dFoot "T" rfl
  refine ⟨?_, ?_, by linarith⟩
  · rw [he, hfc]
    simp [cmdsOf]
  · rw [he, hfc]
    simp only [cmdsOf, List.filter_append]
    rw [show List.filter isRightStr (mainCmds env0 dFoot "T") = [] from
      List.filter_eq_nil_iff.mpr (fun c hc => by
        rw [noRight_mainCmds env0 dFoot "T" c hc]; simp)]
    simp [isRightStr]

/-- Claim C7 witness: the amended theorem applied to the concrete input
`dFoot` (present title "T", footer "F"). -/
theorem footer_last_page_witness :
    build_poster env0 dFoot =
      Except.ok (mainCmds env0 dFoot "T" ++
        [Cmd.setFont "Helvetica" 20, Cmd.setFillColor Color.black,
         Cmd.drawRightString (rightX dFoot.layout (dFoot.page_mm.1 * mm))
           (bottomY dFoot.layout - 10) "F"]) ∧
    noRightCmds (mainCmds env0 dFoot "T") ∧
    bottomY dFoot.layout - 10 < bottomY dFoot.layout :=
  footer_last_page env0 dFoot "T" "F" rfl rfl (by decide)

end Poster
